import Mathlib

/-!
Shallow embedding of `app.py` of the `makita_spare_finder` repository.

Strings are modelled as Lean `String` (lists of characters); pandas cell
values are modelled by `Cell` (a value is either null/NaN or has a string
form).  Python floats are treated at two levels: `to_float`/`to_int`
idealize the `float()` step as the exact rational value of the parsed
literal, while `roundBin64`/`to_int_ieee` refine it to IEEE-754 binary64
(round-to-nearest-even, subnormals, overflow to infinity and the
resulting `int(inf)` `OverflowError` fallback to 0), which the truncation
behaviour of the integer coercion genuinely depends on.  Regex-based
tests in the code are applied to `re.escape`d queries only, hence they
are embedded as literal substring / literal prefix tests.
-/

/-- Model of Python `str.strip()` on the characters of a string:
drop leading and trailing whitespace. -/
def pyStrip (s : String) : String :=
  String.mk (((s.data.dropWhile Char.isWhitespace).reverse.dropWhile Char.isWhitespace).reverse)

/-- Executable substring test on character lists: `hasSubstr n h` is true
iff `n` occurs contiguously inside `h`.  This embeds Python's
`needle in hay` and pandas `Series.str.contains(re.escape(needle))`. -/
def hasSubstr (needle : List Char) : List Char → Bool
  | [] => needle.isEmpty
  | c :: cs => needle.isPrefixOf (c :: cs) || hasSubstr needle cs

/-- Model of Python `s.split(sep, 1)`: split at the FIRST occurrence of
`sep`, returning the part before and the part after; `none` when `sep`
does not occur (Python then returns the one-element list `[s]`). -/
def splitFirst (sep : List Char) : List Char → Option (List Char × List Char)
  | [] => if sep.isPrefixOf ([] : List Char) then some ([], []) else none
  | c :: cs =>
    if sep.isPrefixOf (c :: cs) then some ([], (c :: cs).drop sep.length)
    else
      match splitFirst sep cs with
      | some (a, b) => some (c :: a, b)
      | none => none

/-- The literal separator `" - "` used by the search query syntax. -/
def sepChars : List Char := " - ".data

/-- Case-insensitive literal substring test, embedding
`hay.str.contains(re.escape(pat), case=False)` from `app.py`. -/
def str_contains_ci (hay pat : String) : Bool :=
  hasSubstr (pat.data.map Char.toLower) (hay.data.map Char.toLower)

/-- Case-insensitive literal prefix test, embedding
`hay.str.match(fr"^{escape(pat)}", case=False)` from `app.py`
(`re.match` is anchored at the start of the string). -/
def str_prefix_ci (hay pat : String) : Bool :=
  List.isPrefixOf (pat.data.map Char.toLower) (hay.data.map Char.toLower)

/-- Propositional form of case-insensitive literal substring containment
(the specification's "contains, case-insensitively"). -/
abbrev ciSubstrP (pat hay : String) : Prop :=
  (pat.data.map Char.toLower) <:+: (hay.data.map Char.toLower)

/-- Propositional form of case-insensitive literal prefix
(the specification's "starts with, case-insensitively"). -/
abbrev ciPrefixP (pat hay : String) : Prop :=
  (pat.data.map Char.toLower) <+: (hay.data.map Char.toLower)

/-- The normalized query echoed in messages: with the separator present the
code rebuilds `f"{q_model} - {q_desc}"`, otherwise it uses the query
itself (tab1 add handler of `app.py`). -/
def q_display (q : String) : String :=
  match splitFirst sepChars q.data with
  | some (a, b) => String.mk a ++ " - " ++ String.mk b
  | none => q

/-- Header normalization `_norm` of `app.py`:
`re.sub(r"[^a-z0-9]", "", str(s).strip().lower())`. -/
def _norm (s : String) : String :=
  String.mk (((pyStrip s).data.map Char.toLower).filter
    (fun c => (Char.ofNat 97 ≤ c && c ≤ Char.ofNat 122) || (Char.ofNat 48 ≤ c && c ≤ Char.ofNat 57)))

/-- The `CANDIDATES` table of `app.py`: canonical field names with their
accepted header aliases, in source order. -/
def CANDIDATES : List (String × List String) :=
  [("model", ["model", "partno", "partnumber", "itemcode", "material"]),
   ("material_description", ["materialdescription", "description", "desc", "itemdesc", "materialdesc"]),
   ("shrm", ["shrm", "showroom"]),
   ("home", ["home", "godown", "warehouse"]),
   ("stock", ["stock", "qty", "quantity", "onhand"]),
   ("used_spares", ["usedspares", "used spares", "used"]),
   ("price", ["price", "unitprice", "cost", "salesprice"])]

/-- Model of the dict `norm_to_actual = {_norm(c): c for c in df_columns}`:
lookup by normalized name; with duplicate normalized names the LAST header
wins, as in a Python dict comprehension. -/
def norm_to_actual (headers : List String) (n : String) : Option String :=
  (headers.filter (fun h => _norm h == n)).getLast?

/-- The inner alias loop of `build_column_map`: the first alias whose
normalized form matches a normalized actual header wins. -/
def resolve_key (headers : List String) (options : List String) : Option String :=
  options.findSome? (fun opt => norm_to_actual headers (_norm opt))

/-- The column map built by `build_column_map` before its mandatory-field
check: canonical keys, in `CANDIDATES` order, paired with the matched
actual header; unmatched keys are absent. -/
def column_map (headers : List String) : List (String × String) :=
  CANDIDATES.filterMap (fun kv => (resolve_key headers kv.2).map (fun h => (kv.1, h)))

/-- The schema failure raised by `build_column_map` (a `ValueError` in the
code, the spec's `SchemaError`); it carries the accepted alias lists for
the two mandatory canonical fields, which the message prints. -/
inductive SchemaError where
  | missingRequired (modelAliases descAliases : List String)
deriving DecidableEq

/-- Embeds `build_column_map` of `app.py`: build the column map and fail
with the alias-naming error when `model` or `material_description` is
unresolved. -/
def build_column_map (headers : List String) : Except SchemaError (List (String × String)) :=
  let colmap := column_map headers
  if ((colmap.lookup "model").isSome && (colmap.lookup "material_description").isSome) then
    Except.ok colmap
  else
    Except.error (SchemaError.missingRequired
      ((CANDIDATES.lookup "model").getD [])
      ((CANDIDATES.lookup "material_description").getD []))

/-- Specification-side predicate: some header resolves canonical field
`key`, i.e. some accepted alias of `key` and some actual header have the
same normalized form. -/
abbrev resolvable (headers : List String) (key : String) : Prop :=
  ∃ opt ∈ (CANDIDATES.lookup key).getD [], ∃ h ∈ headers, _norm h = _norm opt

/-- A raw spreadsheet cell: either null (pandas NaN / `pd.isna`) or a
value whose Python string form `str(val)` is `s`. -/
inductive Cell where
  | null
  | str (s : String)
deriving DecidableEq

/-- Python `str()` as seen by `astype(str)`: NaN renders as `"nan"`. -/
def cellStr : Cell → String
  | Cell.null => "nan"
  | Cell.str s => s

/-- Value of a list of decimal digit characters. -/
def digitsVal (ds : List Char) : Nat :=
  ds.foldl (fun a c => a * 10 + (c.toNat - 48)) 0

/-- Continuation of a digit run with Python's digit grouping (PEP 515):
further digits, or a single underscore that must sit BETWEEN digits;
underscores are dropped from the collected digits; a stray underscore
stops the run unconsumed (which then fails the surrounding parse, as in
Python). -/
def digitsTailU : List Char → List Char × List Char
  | [] => ([], [])
  | c :: rest =>
    if c.isDigit then
      let p := digitsTailU rest
      (c :: p.1, p.2)
    else if c == '_' then
      match rest with
      | [] => ([], [c])
      | d :: rest2 =>
        if d.isDigit then
          let p := digitsTailU rest2
          (d :: p.1, p.2)
        else ([], c :: rest)
    else ([], c :: rest)

/-- A maximal digit group of a Python float literal: starts with a digit,
then digits with optional single underscores between them.  Returns the
digits (underscores removed) and the unconsumed remainder. -/
def takeDigitsU : List Char → List Char × List Char
  | [] => ([], [])
  | c :: rest =>
    if c.isDigit then
      let p := digitsTailU rest
      (c :: p.1, p.2)
    else ([], c :: rest)

/-- Exponent digits (after an optional sign) of a float literal: a
non-empty digit group with nothing after it. -/
def parse_exp_digits (l : List Char) (neg : Bool) : Option Int :=
  let p := takeDigitsU l
  if p.1.isEmpty || !p.2.isEmpty then none
  else some (if neg then -(digitsVal p.1 : Int) else (digitsVal p.1 : Int))

/-- Exponent part of a float literal: optional sign then digits. -/
def parse_exp : List Char → Option Int
  | '+' :: t => parse_exp_digits t false
  | '-' :: t => parse_exp_digits t true
  | t => parse_exp_digits t false

/-- Exponentiation by squaring with explicit fuel; fuel at least the
exponent computes `b ^ k` (certified by `natPow_eq` below), and the
evaluation depth is logarithmic in the exponent, so large powers reduce
inside proofs. -/
def powFuel : Nat → Nat → Nat → Nat
  | 0, _, _ => 1
  | f + 1, b, k =>
    if k = 0 then 1
    else
      let h := powFuel f b (k / 2)
      if k % 2 = 0 then h * h else h * h * b

/-- `b ^ k` by squaring (equal to `Nat.pow`, see `natPow_eq`). -/
def natPow (b k : Nat) : Nat := powFuel k b k

/-- The exact rational value of a parsed float literal: sign `neg`,
mantissa digits worth `m` with `fracLen` of them after the point, and
decimal exponent `k`, i.e. `±m / 10^fracLen * 10^k`.  Built with a single
`mkRat` over integer arithmetic. -/
def ratMFE (neg : Bool) (m fracLen : Nat) (k : Int) : Rat :=
  let n : Int := if neg then Int.negOfNat m else Int.ofNat m
  if 0 ≤ k then mkRat (n * Int.ofNat (natPow 10 k.toNat)) (natPow 10 fracLen)
  else mkRat n (natPow 10 fracLen * natPow 10 (-k).toNat)

/-- Optional exponent suffix applied to a parsed mantissa. -/
def parse_tail (neg : Bool) (m fracLen : Nat) : List Char → Option Rat
  | [] => some (ratMFE neg m fracLen 0)
  | c :: t =>
    if c == 'e' || c == 'E' then (parse_exp t).map (ratMFE neg m fracLen)
    else none

/-- Unsigned float literal with the sign already consumed:
`digits [. digits] [exp]` or `. digits [exp]`, with at least one digit in
the mantissa; digit groups follow Python's underscore grouping. -/
def parse_unsigned (neg : Bool) (l : List Char) : Option Rat :=
  let ipr := takeDigitsU l
  match ipr.2 with
  | '.' :: t =>
    let fpr := takeDigitsU t
    if ipr.1.isEmpty && fpr.1.isEmpty then none
    else parse_tail neg (digitsVal (ipr.1 ++ fpr.1)) fpr.1.length fpr.2
  | r2 =>
    if ipr.1.isEmpty then none
    else parse_tail neg (digitsVal ipr.1) 0 r2

/-- Model of Python `float(s)` on a string argument: strip whitespace,
optional sign, decimal literal with optional fraction, exponent and
underscore digit grouping; `none` models a `ValueError`.  The exact value
is kept as a rational; `inf`/`nan` literals are not modelled (they are no
`ValueError` in Python — for `int(float(.))` both still end in the `0`
fallback, via `OverflowError`/`ValueError` from `int()`, so `to_int`
agrees with the program on them; `float("inf")` itself has no rational
value and stays outside the model). -/
def parse_py_float (s : String) : Option Rat :=
  match (pyStrip s).data with
  | '-' :: t => parse_unsigned true t
  | '+' :: t => parse_unsigned false t
  | l => parse_unsigned false l

/-- Python `int()` on a finite float: truncation toward zero. -/
def truncRat (q : Rat) : Int :=
  Int.tdiv q.num (q.den : Int)

/-- Embeds `to_int` of `app.py` with the `float()` step idealized as
exact rational arithmetic: `0` for null and on any parse failure, else
`int(float(str(val).strip()))` on the exactly-parsed value.
`to_int_ieee` below refines the `float()` step to IEEE-754 binary64
(rounding and overflow); the two agree wherever the parsed value is
itself a double and, in particular, on every input relevant to the
total/silent/zero-default and sign behaviour studied here. -/
def to_int : Cell → Int
  | Cell.null => 0
  | Cell.str s =>
    match parse_py_float (pyStrip s) with
    | some q => truncRat q
    | none => 0

/-- Number of squarings of `t` needed to strictly exceed `n`
(fuel-bounded; fuel `n` always suffices, the recursion stops much
earlier).  `expBound n 2 n` hence returns a `j` with `n < 2 ^ 2 ^ j`. -/
def expBound : Nat → Nat → Nat → Nat
  | 0, _, _ => 0
  | f + 1, t, n => if n < t then 0 else expBound f (t * t) n + 1

/-- Floor of the binary logarithm (0 at 0), by binary search on the
exponent from the doubling bound; evaluation depth is logarithmic. -/
def natLog2 (n : Nat) : Nat :=
  let j := expBound n 2 n
  (List.range j).reverse.foldl
    (fun e i => if natPow 2 (e + natPow 2 i) ≤ n then e + natPow 2 i else e) 0

/-- Does `2^e ≤ a / b` hold, for natural `a`, `b` with `b` positive? -/
def pow2le (e : Int) (a b : Nat) : Bool :=
  if 0 ≤ e then decide (natPow 2 e.toNat * b ≤ a)
  else decide (b ≤ a * natPow 2 (-e).toNat)

/-- The binade exponent of a positive rational `a / b`: the unique `e`
with `2^e ≤ a/b < 2^(e+1)` (the floor log2 estimate from the numerator
and denominator is off by at most one, fixed by one comparison). -/
def ratExp2 (a b : Nat) : Int :=
  let e0 : Int := (natLog2 a : Int) - (natLog2 b : Int)
  if pow2le e0 a b then e0 else e0 - 1

/-- Round a rational to the nearest IEEE-754 binary64 value
(round-to-nearest, ties-to-even, subnormals and underflow-to-zero
included): `some d` is the exact rational value of the resulting double,
`none` is overflow to an infinity.  The significand is rounded at scale
`2^(e-52)` in the value's binade (never below the subnormal scale
`2^-1074`), and any result of magnitude at least `2^1024` overflows. -/
def roundBin64 (q : Rat) : Option Rat :=
  if q.num = 0 then some 0
  else
    let a : Nat := q.num.natAbs
    let b : Nat := q.den
    let e : Int := ratExp2 a b
    let s : Int := max (e - 52) (-1074)
    let na : Nat := a * natPow 2 (max 0 (-s)).toNat
    let nb : Nat := b * natPow 2 (max 0 s).toNat
    let n0 : Nat := na / nb
    let r : Nat := na % nb
    let n : Nat :=
      if 2 * r < nb then n0
      else if nb < 2 * r then n0 + 1
      else if n0 % 2 = 0 then n0 else n0 + 1
    if natPow 2 (1024 - s).toNat ≤ n then none
    else
      let m : Int := if q.num < 0 then -(n : Int) else (n : Int)
      if 0 ≤ s then some (mkRat (m * (natPow 2 s.toNat : Int)) 1)
      else some (mkRat m (natPow 2 (-s).toNat))

/-- Embeds `to_int` of `app.py` with the `float()` step given full
IEEE-754 binary64 semantics: the parsed decimal value is rounded to the
nearest double BEFORE `int()` truncates toward zero, and an overflow to
infinity makes `int()` raise `OverflowError`, which the bare `except`
swallows into the `0` fallback. -/
def to_int_ieee : Cell → Int
  | Cell.null => 0
  | Cell.str s =>
    match parse_py_float (pyStrip s) with
    | some q =>
      match roundBin64 q with
      | some d => truncRat d
      | none => 0
    | none => 0

/-- Embeds `to_float` of `app.py`: `0.0` for null and on any parse
failure, else `float(str(val).strip().replace(",", ""))` (all commas
removed). -/
def to_float : Cell → Rat
  | Cell.null => 0
  | Cell.str s =>
    match parse_py_float (String.mk ((pyStrip s).data.filter (fun c => c != ','))) with
    | some q => q
    | none => 0

/-- The numeric reading an integer cell gets inside `to_int`: `none` when
the cell is absent, null, or fails to parse. -/
def int_cell_val : Option Cell → Option Rat
  | some (Cell.str s) => parse_py_float (pyStrip s)
  | _ => none

/-- The numeric reading a price cell gets inside `to_float` (commas
removed before parsing): `none` when absent, null, or unparseable. -/
def float_cell_val : Option Cell → Option Rat
  | some (Cell.str s) => parse_py_float (String.mk ((pyStrip s).data.filter (fun c => c != ',')))
  | _ => none

/-- A normalized Stock Record as produced by `build_app_df` (one row of
the app dataframe). -/
structure Record where
  model : String
  material_description : String
  shrm : String
  home : String
  stock : Int
  used_spares : Int
  price : Rat
deriving DecidableEq

/-- One raw spreadsheet row restricted to the resolved columns: `none` in
a field means the column was NOT resolved into the column map (the
per-row view of `col_series` falling back to its default series). -/
structure RawRow where
  model : Option Cell
  material_description : Option Cell
  shrm : Option Cell
  home : Option Cell
  stock : Option Cell
  used_spares : Option Cell
  price : Option Cell
deriving DecidableEq

/-- The `model` / `material_description` pipeline of `build_app_df`:
`col_series(key, "")` then `astype(str)` (no fillna, no replace), so a
null cell becomes the string `"nan"` and an absent column becomes `""`. -/
def text_plain_field : Option Cell → String
  | none => ""
  | some c => cellStr c

/-- The `shrm` / `home` pipeline of `build_app_df`:
`col_series(key, "")`, then `fillna("N-A")`, then `astype(str)`, then
`replace("nan", "N-A")` (whole-value replacement).  An absent column
yields the default series of `""`, which none of the later steps touch. -/
def text_default_field : Option Cell → String
  | none => ""
  | some Cell.null => "N-A"
  | some (Cell.str s) => if s = "nan" then "N-A" else s

/-- The `stock` / `used_spares` pipeline of `build_app_df`: `to_int` over
the column when resolved, else the constant `0` series. -/
def int_field : Option Cell → Int
  | none => 0
  | some c => to_int c

/-- The `price` pipeline of `build_app_df`:
`col_series("price", 0).apply(to_float)` — `to_float` is applied even to
the default `0` cells of an absent column. -/
def price_field : Option Cell → Rat
  | none => to_float (Cell.str "0")
  | some c => to_float c

/-- Row-wise embedding of `build_app_df` of `app.py`. -/
def build_app_row (r : RawRow) : Record :=
  { model := text_plain_field r.model
    material_description := text_plain_field r.material_description
    shrm := text_default_field r.shrm
    home := text_default_field r.home
    stock := int_field r.stock
    used_spares := int_field r.used_spares
    price := price_field r.price }

/-- One line of the request list (`st.session_state["request_rows"]`):
a copied Stock Record plus a quantity.  `qty = none` models a missing /
NaN quantity (possible through the dynamic-row data editor). -/
structure ReqLine where
  model : String
  material_description : String
  shrm : String
  home : String
  stock : Int
  used_spares : Int
  price : Rat
  qty : Option Int
deriving DecidableEq

/-- The dict built by `add_request_row` of `app.py`: every Stock Record
field copied verbatim, `qty = 1`. -/
def line_of (r : Record) : ReqLine :=
  { model := r.model
    material_description := r.material_description
    shrm := r.shrm
    home := r.home
    stock := r.stock
    used_spares := r.used_spares
    price := r.price
    qty := some 1 }

/-- Embeds `add_request_row` of `app.py`: append one line to the request
list. -/
def add_request_row (cart : List ReqLine) (r : Record) : List ReqLine :=
  cart ++ [line_of r]

/-- The live-filter mask of tab1 (`app.py`, filtering block): with the
separator `" - "` present, AND of case-insensitive literal substring
tests on model and description; otherwise OR of substring tests.  The
patterns are `re.escape`d in the code, hence literal. -/
def filter_match (q : String) (r : Record) : Bool :=
  match splitFirst sepChars q.data with
  | some (qm, qd) =>
    str_contains_ci r.model (String.mk qm) && str_contains_ci r.material_description (String.mk qd)
  | none => str_contains_ci r.model q || str_contains_ci r.material_description q

/-- The add-to-list hit mask of tab1 (`app.py`, add handler): same AND
rule with the separator, but WITHOUT the separator the model test is an
anchored `str.match` — a case-insensitive literal PREFIX test — while the
description test stays a substring test. -/
def add_match (q : String) (r : Record) : Bool :=
  match splitFirst sepChars q.data with
  | some (qm, qd) =>
    str_contains_ci r.model (String.mk qm) && str_contains_ci r.material_description (String.mk qd)
  | none => str_prefix_ci r.model q || str_contains_ci r.material_description q

/-- Outcome reported by the add handler: success / not-found / ambiguous
(with the match count), mirroring `st.success` / `st.error` /
`st.warning` of the code. -/
inductive AddOutcome where
  | added (msg : String)
  | notFound (msg : String)
  | ambiguous (count : Nat)
deriving DecidableEq

/-- Embeds the add-button handler of tab1: resolve the committed query
against the records; exactly one hit is appended immediately, zero hits
report not-found, several hits leave the list unchanged (awaiting an
explicit index). -/
def add_step (q : String) (df : List Record) (cart : List ReqLine) : List ReqLine × AddOutcome :=
  match df.filter (add_match q) with
  | [] => (cart, AddOutcome.notFound ("Part not found: " ++ q_display q))
  | [h] => (add_request_row cart h, AddOutcome.added ("Added: " ++ h.model))
  | h1 :: h2 :: t => (cart, AddOutcome.ambiguous (h1 :: h2 :: t).length)

/-- Embeds the "Confirm Add Selected Match" handler: append the hit at
the chosen 0-based index (the widget constrains the index to
`[0, len(matches) - 1]`; an out-of-range index adds nothing). -/
def add_confirm (q : String) (df : List Record) (cart : List ReqLine) (i : Nat) : List ReqLine :=
  match (df.filter (add_match q))[i]? with
  | some h => add_request_row cart h
  | none => cart

/-- The quantity sanitation tab2 applies to the stored rows before either
edit path runs: `fillna(1).astype(int)` then clamp negatives to 0
(`req_df.loc[req_df["qty"] < 0, "qty"] = 0`). -/
def sanitize_qty (q : Option Int) : Int :=
  let v := q.getD 1
  if v < 0 then 0 else v

/-- One request line after tab2's quantity sanitation. -/
def sanitize_line (l : ReqLine) : ReqLine :=
  { l with qty := some (sanitize_qty l.qty) }

/-- The compact/card (mobile) edit path of tab2: each line of the
sanitized dataframe is re-stored with the quantity returned by its
`st.number_input` (whose `min_value=0` keeps edits non-negative). -/
def mobile_edit_step (rows : List ReqLine) (edits : List Int) : List ReqLine :=
  List.zipWith (fun l e => { l with qty := some e }) (rows.map sanitize_line) edits

/-- The table (`st.data_editor`) edit path of tab2: the edited quantity
column is `fillna(0).astype(int)` and the rows are re-stored; a `none`
edit is a cleared cell (the editor's `min_value=0` keeps present edits
non-negative). -/
def table_edit_step (rows : List ReqLine) (edits : List (Option Int)) : List ReqLine :=
  List.zipWith (fun l e => { l with qty := some (e.getD 0) }) (rows.map sanitize_line) edits

/-- Derived per-line total `price * qty`, recomputed, never stored. -/
def line_total (l : ReqLine) : Rat :=
  l.price * ((l.qty.getD 0 : Int) : Rat)

/-- The totals row of tab2: item count, total quantity, total amount. -/
def totals (rows : List ReqLine) : Nat × Int × Rat :=
  (rows.length, (rows.map (fun l => l.qty.getD 0)).sum, (rows.map line_total).sum)

/-- Concrete record used to instantiate the C1 theorem. -/
def recW1 : Record :=
  { model := "DR100", material_description := "Battery", shrm := "N-A", home := "N-A",
    stock := 5, used_spares := 2, price := 0 }

/-- Concrete record used to instantiate the C3 theorem. -/
def recW3 : Record :=
  { model := "M100", material_description := "Blade", shrm := "N-A", home := "N-A",
    stock := 0, used_spares := 0, price := 0 }

/-- Concrete record used to instantiate the C2 theorem. -/
def recW2 : Record :=
  { model := "M100", material_description := "Blade", shrm := "3", home := "2",
    stock := 4, used_spares := 1, price := mkRat 25 2 }

/-- Raw row whose shrm/home cells hold the EMPTY STRING (not NaN). -/
def rowEmptyShrm : RawRow :=
  { model := some (Cell.str "M100"), material_description := some (Cell.str "Blade"),
    shrm := some (Cell.str ""), home := some (Cell.str ""),
    stock := none, used_spares := none, price := none }

/-- Raw row from a sheet where no shrm/home column was resolved at all. -/
def rowNoShrm : RawRow :=
  { model := some (Cell.str "M100"), material_description := some (Cell.str "Blade"),
    shrm := none, home := none, stock := none, used_spares := none, price := none }

/-- Raw row whose shrm/home cells are null (NaN). -/
def rowNullShrm : RawRow :=
  { model := some (Cell.str "M100"), material_description := some (Cell.str "Blade"),
    shrm := some Cell.null, home := some Cell.null,
    stock := none, used_spares := none, price := none }

/-- Raw row with negative numeric cells. -/
def rowNegStock : RawRow :=
  { model := some (Cell.str "M"), material_description := some (Cell.str "D"),
    shrm := none, home := none,
    stock := some (Cell.str "-3"), used_spares := some (Cell.str "-1"),
    price := some (Cell.str "-2.5") }

/-- Raw row whose numeric cells are unparseable or absent. -/
def rowW8 : RawRow :=
  { model := some (Cell.str "M"), material_description := some (Cell.str "D"),
    shrm := none, home := none,
    stock := some (Cell.str "n/a"), used_spares := none, price := some Cell.null }

/-- Request line with a (corrupted) negative stored quantity. -/
def lineW7 : ReqLine :=
  { model := "M", material_description := "D", shrm := "N-A", home := "N-A",
    stock := 1, used_spares := 0, price := 0, qty := some (-5) }

/-! Helper lemmas.  First, the squaring exponentiation is certified to
be ordinary exponentiation. -/

theorem powFuel_eq (f : Nat) : ∀ b k, k ≤ f → powFuel f b k = b ^ k := by
  induction f with
  | zero =>
    intro b k hk
    have hk0 : k = 0 := Nat.le_zero.mp hk
    subst hk0
    simp [powFuel]
  | succ f ih =>
    intro b k hk
    rw [powFuel]
    by_cases h0 : k = 0
    · subst h0
      simp
    · simp only [h0, if_false]
      have hk2 : k / 2 ≤ f := by omega
      rw [ih b (k / 2) hk2]
      by_cases he : k % 2 = 0
      · simp only [he, if_true]
        rw [← pow_add]
        congr 1
        omega
      · simp only [he, if_false]
        rw [← pow_add, ← pow_succ]
        congr 1
        omega

theorem natPow_eq (b k : Nat) : natPow b k = b ^ k :=
  powFuel_eq k b k le_rfl

/-! Helper lemmas about the string machinery. -/

theorem isPrefixOf_true (l₁ l₂ : List Char) : l₁.isPrefixOf l₂ = true ↔ l₁ <+: l₂ :=
  List.isPrefixOf_iff_prefix

theorem hasSubstr_iff (n h : List Char) : hasSubstr n h = true ↔ n <:+: h := by
  induction h with
  | nil => simp [hasSubstr, List.isEmpty_iff, List.infix_nil]
  | cons c cs ih =>
    rw [hasSubstr]
    simp only [Bool.or_eq_true, ih, List.infix_cons_iff, isPrefixOf_true]

theorem splitFirst_none (sep l : List Char) : splitFirst sep l = none ↔ ¬ sep <:+: l := by
  induction l with
  | nil =>
    rw [splitFirst]
    split
    next hb =>
      have hsep : sep = [] := List.prefix_nil.mp ((isPrefixOf_true _ _).mp hb)
      subst hsep
      simp [List.infix_nil]
    next hb =>
      have hsep : sep ≠ [] := by
        intro e
        subst e
        simp [List.isPrefixOf] at hb
      simp [List.infix_nil, hsep]
  | cons c cs ih =>
    rw [splitFirst]
    split
    next hb =>
      obtain ⟨t, ht⟩ := (isPrefixOf_true _ _).mp hb
      have hin : sep <:+: c :: cs := ⟨[], t, by simpa using ht⟩
      simp [hin]
    next hb =>
      have hnp : ¬ sep <+: c :: cs := fun hp => by
        rw [(isPrefixOf_true _ _).mpr hp] at hb
        exact hb rfl
      cases hsp : splitFirst sep cs with
      | some ab =>
        obtain ⟨a, b⟩ := ab
        have hin : sep <:+: cs := by
          by_contra hni
          rw [ih.mpr hni] at hsp
          exact Option.noConfusion hsp
        simp [List.infix_cons_iff, hin]
      | none =>
        have hni : ¬ sep <:+: cs := ih.mp hsp
        simp [List.infix_cons_iff, hnp, hni]

theorem splitFirst_append (sep : List Char) :
    ∀ l a b, splitFirst sep l = some (a, b) → l = a ++ sep ++ b := by
  intro l
  induction l with
  | nil =>
    intro a b h
    rw [splitFirst] at h
    split at h
    next hb =>
      have hsep : sep = [] := List.prefix_nil.mp ((isPrefixOf_true _ _).mp hb)
      simp only [Option.some.injEq, Prod.mk.injEq] at h
      obtain ⟨rfl, rfl⟩ := h
      subst hsep
      rfl
    next hb => exact Option.noConfusion h
  | cons c cs ih =>
    intro a b h
    rw [splitFirst] at h
    split at h
    next hb =>
      obtain ⟨t, ht⟩ := (isPrefixOf_true _ _).mp hb
      simp only [Option.some.injEq, Prod.mk.injEq] at h
      obtain ⟨rfl, rfl⟩ := h
      rw [← ht, List.nil_append, List.drop_left]
    next hb =>
      cases hsp : splitFirst sep cs with
      | some ab =>
        obtain ⟨a1, b1⟩ := ab
        rw [hsp] at h
        simp only [Option.some.injEq, Prod.mk.injEq] at h
        obtain ⟨rfl, rfl⟩ := h
        have hcs := ih a1 b1 hsp
        simp [hcs]
      | none =>
        rw [hsp] at h
        exact Option.noConfusion h

theorem splitFirst_min (sep : List Char) :
    ∀ l a b, splitFirst sep l = some (a, b) →
      ∀ a' b', l = a' ++ sep ++ b' → a.length ≤ a'.length := by
  intro l
  induction l with
  | nil =>
    intro a b h a' b' he
    rw [splitFirst] at h
    split at h
    next =>
      simp only [Option.some.injEq, Prod.mk.injEq] at h
      obtain ⟨rfl, rfl⟩ := h
      simp
    next => exact Option.noConfusion h
  | cons c cs ih =>
    intro a b h a' b' he
    rw [splitFirst] at h
    split at h
    next hb =>
      simp only [Option.some.injEq, Prod.mk.injEq] at h
      obtain ⟨rfl, rfl⟩ := h
      simp
    next hb =>
      cases hsp : splitFirst sep cs with
      | some ab =>
        obtain ⟨a1, b1⟩ := ab
        rw [hsp] at h
        simp only [Option.some.injEq, Prod.mk.injEq] at h
        obtain ⟨rfl, rfl⟩ := h
        cases a' with
        | nil =>
          exfalso
          apply hb
          apply (isPrefixOf_true _ _).mpr
          exact ⟨b', by simpa using he.symm⟩
        | cons c' a'' =>
          simp only [List.cons_append, List.cons.injEq] at he
          obtain ⟨rfl, he2⟩ := he
          have hrec := ih a1 b1 hsp a'' b' he2
          simpa using Nat.succ_le_succ hrec
      | none =>
        rw [hsp] at h
        exact Option.noConfusion h

theorem splitFirst_eq_of_min (sep l a b : List Char) (h : l = a ++ sep ++ b)
    (hmin : ∀ a' b', l = a' ++ sep ++ b' → a.length ≤ a'.length) :
    splitFirst sep l = some (a, b) := by
  cases hsp : splitFirst sep l with
  | none =>
    exfalso
    exact (splitFirst_none sep l).mp hsp ⟨a, b, h.symm⟩
  | some ab =>
    obtain ⟨a0, b0⟩ := ab
    have h0 := splitFirst_append sep l a0 b0 hsp
    have hle := splitFirst_min sep l a0 b0 hsp a b h
    have hge := hmin a0 b0 h0
    have hlen : a0.length = a.length := Nat.le_antisymm hle hge
    have hinj := @List.append_inj Char a0 a (sep ++ b0) (sep ++ b)
      (by rw [← List.append_assoc, ← h0, ← List.append_assoc, ← h]) hlen
    obtain ⟨rfl, htail⟩ := hinj
    have hb : b0 = b := by
      have := List.append_inj htail rfl
      exact this.2
    subst hb
    rfl

/-- C1: with the separator `" - "` in the (non-empty) query, the live
filter matches a record iff the model contains the part before the FIRST
separator occurrence and the description contains the part after it, both
as case-insensitive literal substrings; without the separator it matches
iff the model or the description contains the query, case-insensitively
and literally. -/
theorem claim_C1 (q : String) (r : Record) (hq : q ≠ "") :
    (∀ a b : List Char, q.data = a ++ sepChars ++ b →
        (∀ a' b' : List Char, q.data = a' ++ sepChars ++ b' → a.length ≤ a'.length) →
        (filter_match q r = true ↔
          (ciSubstrP (String.mk a) r.model ∧ ciSubstrP (String.mk b) r.material_description)))
    ∧ (¬ sepChars <:+: q.data →
        (filter_match q r = true ↔
          (ciSubstrP q r.model ∨ ciSubstrP q r.material_description))) := by
  constructor
  · intro a b hab hmin
    have hsp : splitFirst sepChars q.data = some (a, b) :=
      splitFirst_eq_of_min sepChars q.data a b hab hmin
    rw [filter_match, hsp]
    simp [str_contains_ci, hasSubstr_iff, ciSubstrP]
  · intro hns
    have hsp : splitFirst sepChars q.data = none := (splitFirst_none _ _).mpr hns
    rw [filter_match, hsp]
    simp [str_contains_ci, hasSubstr_iff, ciSubstrP]

/-- Witness for C1 at the separator-free query `"dr"` against a record
whose model is `"DR100"`: the live filter matches. -/
theorem claim_C1_witness : filter_match "dr" recW1 = true :=
  ((claim_C1 "dr" recW1 (by decide)).2 (by decide)).mpr (Or.inl (by decide))

/-- C3: for separator-free non-empty queries, the add-to-list resolution
matches iff the model STARTS WITH the query (case-insensitive literal
prefix) or the description contains it (case-insensitive literal
substring); consequently a record whose model contains the query only in
a non-initial position, with no match in the description, passes the live
filter but not the add-to-list resolution. -/
theorem claim_C3 :
    (∀ (q : String) (r : Record), q ≠ "" → ¬ sepChars <:+: q.data →
      (add_match q r = true ↔ (ciPrefixP q r.model ∨ ciSubstrP q r.material_description)))
    ∧ (∀ (q : String) (r : Record), ¬ sepChars <:+: q.data →
        ciSubstrP q r.model → ¬ ciPrefixP q r.model → ¬ ciSubstrP q r.material_description →
        (filter_match q r = true ∧ add_match q r = false)) := by
  constructor
  · intro q r hq hns
    rw [add_match, (splitFirst_none _ _).mpr hns]
    simp [str_prefix_ci, str_contains_ci, hasSubstr_iff, isPrefixOf_true, ciPrefixP, ciSubstrP]
  · intro q r hns hsub hnpre hnsub
    constructor
    · rw [filter_match, (splitFirst_none _ _).mpr hns]
      simp only [str_contains_ci, Bool.or_eq_true, hasSubstr_iff]
      exact Or.inl hsub
    · rw [add_match, (splitFirst_none _ _).mpr hns]
      simp only [str_prefix_ci, str_contains_ci, Bool.or_eq_false_iff]
      constructor
      · rw [← Bool.not_eq_true, isPrefixOf_true]
        exact hnpre
      · rw [← Bool.not_eq_true, hasSubstr_iff]
        exact hnsub

/-- Witness for C3 at query `"10"` against model `"M100"` / description
`"Blade"`: the live filter matches, the add-to-list resolution does not. -/
theorem claim_C3_witness : filter_match "10" recW3 = true ∧ add_match "10" recW3 = false :=
  claim_C3.2 "10" recW3 (by decide) (by decide) (by decide) (by decide)

theorem q_display_eq (q : String) : q_display q = q := by
  rw [q_display]
  cases hsp : splitFirst sepChars q.data with
  | none => rfl
  | some ab =>
    obtain ⟨a, b⟩ := ab
    have hd := splitFirst_append sepChars q.data a b hsp
    apply String.ext
    show a ++ " - ".data ++ b = q.data
    rw [hd]
    rfl

/-- C2: committing a non-empty query — exactly one hit appends exactly one
line with `qty = 1` whose fields are copies of the hit; zero hits leave
the list unchanged and report a not-found message naming the query;
several hits leave the list unchanged (reporting the count) until a
0-based index below the hit count is supplied, after which exactly the
hit at that index is appended with `qty = 1`. -/
theorem claim_C2 (q : String) (df : List Record) (cart : List ReqLine) (hq : q ≠ "") :
    (∀ h : Record, df.filter (add_match q) = [h] →
        add_step q df cart = (cart ++ [line_of h], AddOutcome.added ("Added: " ++ h.model)) ∧
        (line_of h).qty = some 1 ∧ (line_of h).model = h.model ∧
        (line_of h).material_description = h.material_description ∧
        (line_of h).shrm = h.shrm ∧ (line_of h).home = h.home ∧
        (line_of h).stock = h.stock ∧ (line_of h).used_spares = h.used_spares ∧
        (line_of h).price = h.price)
    ∧ (df.filter (add_match q) = [] →
        add_step q df cart = (cart, AddOutcome.notFound ("Part not found: " ++ q)))
    ∧ (1 < (df.filter (add_match q)).length →
        (add_step q df cart).1 = cart ∧
        (add_step q df cart).2 = AddOutcome.ambiguous (df.filter (add_match q)).length ∧
        ∀ i : Nat, (hi : i < (df.filter (add_match q)).length) →
          ∃ h : Record, (df.filter (add_match q))[i]? = some h ∧
            add_confirm q df cart i = cart ++ [line_of h] ∧ (line_of h).qty = some 1) := by
  refine ⟨?_, ?_, ?_⟩
  · intro h hone
    exact ⟨by simp [add_step, hone, add_request_row], rfl, rfl, rfl, rfl, rfl, rfl, rfl, rfl⟩
  · intro hnil
    simp [add_step, hnil, q_display_eq]
  · intro hgt
    have hshape : ∃ h1 h2 t, df.filter (add_match q) = h1 :: h2 :: t := by
      rcases hf : df.filter (add_match q) with _ | ⟨x, _ | ⟨y, t⟩⟩
      · rw [hf] at hgt
        simp at hgt
      · rw [hf] at hgt
        simp at hgt
      · exact ⟨x, y, t, rfl⟩
    obtain ⟨h1, h2, t, hf⟩ := hshape
    refine ⟨by simp [add_step, hf], by simp [add_step, hf], ?_⟩
    intro i hi
    refine ⟨(df.filter (add_match q))[i], List.getElem?_eq_getElem hi, ?_, rfl⟩
    rw [add_confirm, List.getElem?_eq_getElem hi]
    rfl

/-- Witness for C2: the query `"M100 - Blade"` hits exactly the one loaded
record, and the empty request list becomes that single line with
`qty = 1`. -/
theorem claim_C2_witness :
    add_step "M100 - Blade" [recW2] [] =
      ([] ++ [line_of recW2], AddOutcome.added ("Added: " ++ recW2.model)) :=
  (((claim_C2 "M100 - Blade" [recW2] [] (by decide)).1 recW2 (by decide))).1

/-! Lemmas for the column resolver. -/

theorem lookup_filterMap_none (g : String × List String → Option String)
    (rest : List (String × List String)) (key : String)
    (hnot : key ∉ rest.map Prod.fst) :
    (rest.filterMap (fun kv => (g kv).map (fun h => (kv.1, h)))).lookup key = none := by
  induction rest with
  | nil => rfl
  | cons kv rest ih =>
    obtain ⟨k, opts⟩ := kv
    simp only [List.map_cons, List.mem_cons, not_or] at hnot
    obtain ⟨hne, hnot'⟩ := hnot
    rw [List.filterMap_cons]
    cases g (k, opts) with
    | none => exact ih hnot'
    | some h =>
      simp only [Option.map_some']
      rw [List.lookup]
      simp only [beq_eq_false_iff_ne.mpr hne]
      exact ih hnot'

theorem lookup_column_map (cands : List (String × List String)) (headers : List String)
    (key : String) (hnd : (cands.map Prod.fst).Nodup) :
    (cands.filterMap (fun kv => (resolve_key headers kv.2).map (fun h => (kv.1, h)))).lookup key
      = (cands.lookup key).bind (fun opts => resolve_key headers opts) := by
  induction cands with
  | nil => rfl
  | cons kv rest ih =>
    obtain ⟨k, opts⟩ := kv
    simp only [List.map_cons, List.nodup_cons] at hnd
    obtain ⟨hk, hnd'⟩ := hnd
    rw [List.filterMap_cons]
    by_cases hkey : key = k
    · subst hkey
      cases hres : resolve_key headers opts with
      | some h => simp [List.lookup, hres]
      | none =>
        simp only [hres, Option.map_none']
        rw [lookup_filterMap_none _ _ _ hk]
        simp [List.lookup, hres]
    · have hbeq : (key == k) = false := beq_eq_false_iff_ne.mpr hkey
      cases hres : resolve_key headers opts with
      | some h =>
        simp only [hres, Option.map_some']
        rw [List.lookup, List.lookup]
        simp only [hbeq]
        exact ih hnd'
      | none =>
        simp only [hres, Option.map_none']
        rw [List.lookup]
        simp only [hbeq]
        exact ih hnd'

theorem resolve_key_isSome (headers opts : List String) :
    (resolve_key headers opts).isSome = true ↔
      ∃ opt ∈ opts, ∃ h ∈ headers, _norm h = _norm opt := by
  rw [resolve_key]
  constructor
  · intro hs
    rw [Option.isSome_iff_exists] at hs
    obtain ⟨v, hf⟩ := hs
    obtain ⟨opt, hopt, hfind⟩ := List.exists_of_findSome?_eq_some hf
    refine ⟨opt, hopt, ?_⟩
    rw [norm_to_actual] at hfind
    have hvmem : v ∈ (headers.filter (fun x => _norm x == _norm opt)).getLast? := by
      rw [Option.mem_def]
      exact hfind
    obtain ⟨hne, hveq⟩ := List.mem_getLast?_eq_getLast hvmem
    have hmem : v ∈ headers.filter (fun x => _norm x == _norm opt) := by
      rw [hveq]
      exact List.getLast_mem hne
    rw [List.mem_filter] at hmem
    exact ⟨v, hmem.1, by simpa using hmem.2⟩
  · rintro ⟨opt, hopt, h, hhm, hnorm⟩
    cases hfs : opts.findSome? (fun o => norm_to_actual headers (_norm o)) with
    | some v => simp [hfs]
    | none =>
      exfalso
      have hall := List.findSome?_eq_none.mp hfs opt hopt
      rw [norm_to_actual, List.getLast?_eq_none, List.filter_eq_nil] at hall
      exact absurd (by simpa using hnorm) (by simpa using hall h hhm)

/-- C4: if some header normalizes to an alias of `model` and some header
normalizes to an alias of `material_description`, `build_column_map`
succeeds with a map containing both; otherwise it fails with the
`SchemaError` carrying the accepted alias lists of both mandatory
fields. -/
theorem claim_C4 (headers : List String) :
    (resolvable headers "model" ∧ resolvable headers "material_description" →
      ∃ m, build_column_map headers = Except.ok m ∧
        (m.lookup "model").isSome = true ∧ (m.lookup "material_description").isSome = true)
    ∧ (¬(resolvable headers "model" ∧ resolvable headers "material_description") →
      build_column_map headers = Except.error (SchemaError.missingRequired
        ["model", "partno", "partnumber", "itemcode", "material"]
        ["materialdescription", "description", "desc", "itemdesc", "materialdesc"])) := by
  have hndc : (CANDIDATES.map Prod.fst).Nodup := by decide
  have hm : (column_map headers).lookup "model"
      = resolve_key headers ["model", "partno", "partnumber", "itemcode", "material"] := by
    rw [column_map, lookup_column_map _ _ _ hndc]
    rfl
  have hd : (column_map headers).lookup "material_description"
      = resolve_key headers
          ["materialdescription", "description", "desc", "itemdesc", "materialdesc"] := by
    rw [column_map, lookup_column_map _ _ _ hndc]
    rfl
  constructor
  · rintro ⟨hrm, hrd⟩
    have hsm : (resolve_key headers
        ["model", "partno", "partnumber", "itemcode", "material"]).isSome = true :=
      (resolve_key_isSome _ _).mpr hrm
    have hsd : (resolve_key headers
        ["materialdescription", "description", "desc", "itemdesc", "materialdesc"]).isSome = true :=
      (resolve_key_isSome _ _).mpr hrd
    refine ⟨column_map headers, ?_, ?_, ?_⟩
    · rw [build_column_map]
      simp only [hm, hd, hsm, hsd, Bool.and_self, if_true]
    · rw [hm]
      exact hsm
    · rw [hd]
      exact hsd
  · intro hnot
    have hcond : (((column_map headers).lookup "model").isSome
        && ((column_map headers).lookup "material_description").isSome) = false := by
      rw [hm, hd]
      by_contra hne
      apply hnot
      rw [Bool.not_eq_false, Bool.and_eq_true] at hne
      exact ⟨(resolve_key_isSome _ _).mp hne.1, (resolve_key_isSome _ _).mp hne.2⟩
    rw [build_column_map]
    simp only [hcond, Bool.false_eq_true, if_false]
    rfl

/-- Witness for C4: the headers `"Part No."` and `"Material Description"`
normalize to accepted aliases, so the loader resolves both mandatory
fields. -/
theorem claim_C4_witness :
    ∃ m, build_column_map ["Part No.", "Material Description", "Qty"] = Except.ok m ∧
      (m.lookup "model").isSome = true ∧ (m.lookup "material_description").isSome = true :=
  (claim_C4 ["Part No.", "Material Description", "Qty"]).1 ⟨by decide, by decide⟩

/-- C5: the numeric coercions are total functions of the cell value (they
return a value for EVERY cell — the embedding has no failure channel,
matching the `try/except` that swallows every error); whenever the
numeric reading of the cell fails (null, empty, non-numeric), `to_int`
returns `0` and `to_float` returns `0.0`, and otherwise they return the
parsed value (truncated for `to_int`). -/
theorem claim_C5 (c : Cell) :
    (int_cell_val (some c) = none → to_int c = 0)
    ∧ (float_cell_val (some c) = none → to_float c = 0)
    ∧ (∀ q : Rat, int_cell_val (some c) = some q → to_int c = truncRat q)
    ∧ (∀ q : Rat, float_cell_val (some c) = some q → to_float c = q) := by
  cases c with
  | null =>
    exact ⟨fun _ => rfl, fun _ => rfl,
      fun q hq => Option.noConfusion hq, fun q hq => Option.noConfusion hq⟩
  | str s =>
    refine ⟨?_, ?_, ?_, ?_⟩
    · intro h
      simp only [int_cell_val] at h
      simp [to_int, h]
    · intro h
      simp only [float_cell_val] at h
      simp [to_float, h]
    · intro q hq
      simp only [int_cell_val] at hq
      simp [to_int, hq]
    · intro q hq
      simp only [float_cell_val] at hq
      simp [to_float, hq]

/-- Witness for C5 on the non-numeric cell `"abc"`: both coercions fall
back to zero. -/
theorem claim_C5_witness : to_int (Cell.str "abc") = 0 ∧ to_float (Cell.str "abc") = 0 :=
  ⟨(claim_C5 (Cell.str "abc")).1 (by decide), (claim_C5 (Cell.str "abc")).2.1 (by decide)⟩

/-- Counterexample to C10 as stated: the coercion does NOT return the
parsed number truncated toward zero for every parseable cell text,
because `float()` rounds to binary64 and can overflow.  `"1e999"` parses
as the decimal number `10^999`, whose truncation is nonzero, but
`float("1e999")` is an infinity and `int()`'s `OverflowError` is
swallowed into the `0` fallback; `"0.9999999999999999999"` parses as a
number strictly below one, whose truncation toward zero is `0`, but it
rounds to the double `1.0` and the coercion returns `1`. -/
theorem claim_C10_counterexample :
    parse_py_float (pyStrip "1e999") = some (mkRat (Int.ofNat (natPow 10 999)) 1) ∧
    truncRat (mkRat (Int.ofNat (natPow 10 999)) 1) ≠ 0 ∧
    to_int_ieee (Cell.str "1e999") = 0 ∧
    parse_py_float (pyStrip "0.9999999999999999999") =
      some (mkRat (Int.ofNat (natPow 10 19) - 1) (natPow 10 19)) ∧
    truncRat (mkRat (Int.ofNat (natPow 10 19) - 1) (natPow 10 19)) = 0 ∧
    to_int_ieee (Cell.str "0.9999999999999999999") = 1 := by
  decide

/-- C10 (amended): the integer coercion truncates toward zero the
BINARY64 ROUNDING of the parsed decimal number (truncation meaning floor
for non-negative values and negated floor of the negation for negative
ones), with the `0` fallback when the rounded value overflows to an
infinity; on the claim's examples the rounding is inconsequential and
non-integer text is still no parse failure: `"3.9"` yields `3` and
`"-2.5"` yields `-2`, not `0`. -/
theorem claim_C10 :
    (∀ (s : String) (q : Rat), parse_py_float (pyStrip s) = some q →
        (roundBin64 q = none → to_int_ieee (Cell.str s) = 0)
        ∧ (∀ d : Rat, roundBin64 q = some d → to_int_ieee (Cell.str s) = truncRat d))
    ∧ (∀ q : Rat, 0 ≤ q → truncRat q = ⌊q⌋)
    ∧ (∀ q : Rat, q < 0 → truncRat q = -⌊-q⌋)
    ∧ to_int_ieee (Cell.str "3.9") = 3 ∧ to_int_ieee (Cell.str "-2.5") = -2 := by
  refine ⟨?_, ?_, ?_, by decide, by decide⟩
  · intro s q hq
    constructor
    · intro hr
      simp [to_int_ieee, hq, hr]
    · intro d hr
      simp [to_int_ieee, hq, hr]
  · intro q hq
    rw [truncRat, Rat.floor_def]
    exact Int.tdiv_eq_ediv (Rat.num_nonneg.mpr hq) (Int.natCast_nonneg _)
  · intro q hq
    have hn : q.num < 0 := Rat.num_neg.mpr hq
    rw [truncRat, Rat.floor_def, Rat.neg_num, Rat.neg_den]
    have h1 : q.num.tdiv (q.den : Int) = -((-q.num).tdiv (q.den : Int)) := by
      rw [Int.neg_tdiv, neg_neg]
    rw [h1, Int.tdiv_eq_ediv (by omega) (Int.natCast_nonneg _)]

/-- Witness for C10 (amended): `"2.5"` parses to `5/2`, which is exactly
representable in binary64, and the coercion returns its truncation. -/
theorem claim_C10_witness :
    to_int_ieee (Cell.str "2.5") = truncRat (mkRat 5 2) :=
  (claim_C10.1 "2.5" (mkRat 5 2) (by decide)).2 (mkRat 5 2) (by decide)

/-- Counterexample to C6 as stated: a shrm/home cell holding the EMPTY
STRING keeps the empty string (the `fillna`/`replace` chain only handles
NaN and the literal text `"nan"`), and a sheet with no shrm/home column
at all yields `""` for every row (the default series is `""`, not
`"N-A"`) — in both cases the claimed default `"N-A"` does NOT appear. -/
theorem claim_C6_counterexample :
    (build_app_row rowEmptyShrm).shrm = "" ∧ (build_app_row rowEmptyShrm).home = "" ∧
    (build_app_row rowNoShrm).shrm = "" ∧ (build_app_row rowNoShrm).home = "" ∧
    ¬((build_app_row rowEmptyShrm).shrm = "N-A") ∧
    ¬((build_app_row rowNoShrm).shrm = "N-A") := by
  decide

/-- C6 (amended): a null (NaN) shrm/home cell — and a cell whose string
form is the literal `"nan"` — becomes the default `"N-A"`; an
empty-string cell stays `""`, an absent column yields `""`, and every
other cell keeps its string form. -/
theorem claim_C6 (r : RawRow) :
    (r.shrm = some Cell.null → (build_app_row r).shrm = "N-A")
    ∧ (r.shrm = some (Cell.str "nan") → (build_app_row r).shrm = "N-A")
    ∧ (r.shrm = none → (build_app_row r).shrm = "")
    ∧ (∀ s, r.shrm = some (Cell.str s) → s ≠ "nan" → (build_app_row r).shrm = s)
    ∧ (r.home = some Cell.null → (build_app_row r).home = "N-A")
    ∧ (r.home = some (Cell.str "nan") → (build_app_row r).home = "N-A")
    ∧ (r.home = none → (build_app_row r).home = "")
    ∧ (∀ s, r.home = some (Cell.str s) → s ≠ "nan" → (build_app_row r).home = s) := by
  have hs : (build_app_row r).shrm = text_default_field r.shrm := rfl
  have hh : (build_app_row r).home = text_default_field r.home := rfl
  refine ⟨?_, ?_, ?_, ?_, ?_, ?_, ?_, ?_⟩
  · intro h
    rw [hs, h]
    rfl
  · intro h
    rw [hs, h]
    rfl
  · intro h
    rw [hs, h]
    rfl
  · intro s h hne
    rw [hs, h]
    simp [text_default_field, hne]
  · intro h
    rw [hh, h]
    rfl
  · intro h
    rw [hh, h]
    rfl
  · intro h
    rw [hh, h]
    rfl
  · intro s h hne
    rw [hh, h]
    simp [text_default_field, hne]

/-- Witness for C6 (amended) on a row with null shrm/home cells: both
fields default to `"N-A"`. -/
theorem claim_C6_witness :
    (build_app_row rowNullShrm).shrm = "N-A" ∧ (build_app_row rowNullShrm).home = "N-A" :=
  ⟨(claim_C6 rowNullShrm).1 rfl, (claim_C6 rowNullShrm).2.2.2.2.1 rfl⟩

/-- Counterexample to C8 as stated: a row whose numeric cells hold
negative numbers produces a Stock Record with NEGATIVE `stock`,
`used_spares` and `price` — nothing in `to_int`/`to_float`/`build_app_df`
clamps negative values. -/
theorem claim_C8_counterexample :
    (build_app_row rowNegStock).stock = -3 ∧
    (build_app_row rowNegStock).stock < 0 ∧
    (build_app_row rowNegStock).used_spares < 0 ∧
    (build_app_row rowNegStock).price < 0 := by
  decide

theorem truncRat_nonneg (q : Rat) (h : 0 ≤ q) : 0 ≤ truncRat q :=
  Int.tdiv_nonneg (Rat.num_nonneg.mpr h) (Int.natCast_nonneg _)

theorem int_field_nonneg (oc : Option Cell)
    (h : ∀ q : Rat, int_cell_val oc = some q → 0 ≤ q) : 0 ≤ int_field oc := by
  cases oc with
  | none => simp [int_field]
  | some c =>
    cases c with
    | null => simp [int_field, to_int]
    | str s =>
      simp only [int_field, to_int]
      cases hp : parse_py_float (pyStrip s) with
      | none => simp
      | some q =>
        simp only []
        exact truncRat_nonneg q (h q (by simpa [int_cell_val] using hp))

theorem price_field_nonneg (oc : Option Cell)
    (h : ∀ q : Rat, float_cell_val oc = some q → 0 ≤ q) : 0 ≤ price_field oc := by
  cases oc with
  | none =>
    have h0 : to_float (Cell.str "0") = 0 := by decide
    simp [price_field, h0]
  | some c =>
    cases c with
    | null => simp [price_field, to_float]
    | str s =>
      simp only [price_field, to_float]
      cases hp : parse_py_float (String.mk ((pyStrip s).data.filter (fun c => c != ','))) with
      | none => simp
      | some q =>
        simp only []
        exact h q (by simpa [float_cell_val] using hp)

/-- C8 (amended): the numeric fields of a normalized Stock Record are
non-negative PROVIDED each corresponding raw cell is absent, null,
unparseable (all of which default to zero) or parses to a non-negative
number; negative numeric cells pass through unclamped (see the
counterexample). -/
theorem claim_C8 (r : RawRow)
    (hs : ∀ q : Rat, int_cell_val r.stock = some q → 0 ≤ q)
    (hu : ∀ q : Rat, int_cell_val r.used_spares = some q → 0 ≤ q)
    (hp : ∀ q : Rat, float_cell_val r.price = some q → 0 ≤ q) :
    0 ≤ (build_app_row r).stock ∧ 0 ≤ (build_app_row r).used_spares ∧
      0 ≤ (build_app_row r).price :=
  ⟨int_field_nonneg r.stock hs, int_field_nonneg r.used_spares hu,
    price_field_nonneg r.price hp⟩

/-- Witness for C8 (amended) on a row whose numeric cells are unparseable
or absent: every numeric field is non-negative (they default to zero). -/
theorem claim_C8_witness :
    0 ≤ (build_app_row rowW8).stock ∧ 0 ≤ (build_app_row rowW8).used_spares ∧
      0 ≤ (build_app_row rowW8).price :=
  claim_C8 rowW8
    (fun q hq => by
      rw [show int_cell_val rowW8.stock = none from by decide] at hq
      exact Option.noConfusion hq)
    (fun q hq => by
      rw [show int_cell_val rowW8.used_spares = none from by decide] at hq
      exact Option.noConfusion hq)
    (fun q hq => by
      rw [show float_cell_val rowW8.price = none from by decide] at hq
      exact Option.noConfusion hq)

theorem mem_zipWith {α β γ : Type} (f : α → β → γ) :
    ∀ (as : List α) (bs : List β) (c : γ), c ∈ List.zipWith f as bs →
      ∃ a b, a ∈ as ∧ b ∈ bs ∧ c = f a b := by
  intro as
  induction as with
  | nil =>
    intro bs c h
    simp at h
  | cons a as ih =>
    intro bs c h
    cases bs with
    | nil => simp at h
    | cons b bs =>
      rw [List.zipWith_cons_cons] at h
      rcases List.mem_cons.mp h with h | h
      · exact ⟨a, b, List.mem_cons_self _ _, List.mem_cons_self _ _, h⟩
      · obtain ⟨x, y, hx, hy, hc⟩ := ih bs c h
        exact ⟨x, y, List.mem_cons_of_mem _ hx, List.mem_cons_of_mem _ hy, hc⟩

/-- C7: after an edit pass in either rendering mode every stored line
quantity is a present, non-negative integer (the widgets' `min_value=0`
keeps supplied edits non-negative and a cleared table cell becomes 0 via
`fillna(0)`); moreover the sanitation step clamps a stored NEGATIVE
quantity to exactly 0 — no rejection, no negative result. -/
theorem claim_C7 (rows : List ReqLine) (em : List Int) (et : List (Option Int))
    (hm : ∀ e ∈ em, 0 ≤ e) (ht : ∀ e ∈ et, 0 ≤ e.getD 0) :
    (∀ l ∈ mobile_edit_step rows em, ∃ v, l.qty = some v ∧ 0 ≤ v)
    ∧ (∀ l ∈ table_edit_step rows et, ∃ v, l.qty = some v ∧ 0 ≤ v)
    ∧ (∀ (l : ReqLine) (v : Int), l.qty = some v → v < 0 →
        (sanitize_line l).qty = some 0) := by
  refine ⟨?_, ?_, ?_⟩
  · intro l hl
    obtain ⟨a, e, ha, he, rfl⟩ := mem_zipWith _ _ _ _ hl
    exact ⟨e, rfl, hm e he⟩
  · intro l hl
    obtain ⟨a, e, ha, he, rfl⟩ := mem_zipWith _ _ _ _ hl
    exact ⟨e.getD 0, rfl, ht e he⟩
  · intro l v hv hneg
    simp [sanitize_line, sanitize_qty, hv, hneg]

/-- Witness for C7: a stored line with quantity `-5` is clamped to `0` by
the sanitation step. -/
theorem claim_C7_witness : (sanitize_line lineW7).qty = some 0 :=
  (claim_C7 [lineW7] [3] [some 4] (by decide) (by decide)).2.2 lineW7 (-5) rfl (by decide)

/-- C9: for any request-list state and any complete assignment of new
per-line quantities, the compact/card (mobile) edit path and the table
(data-editor) edit path store identical request lists and report
identical totals (items, total quantity, total amount). -/
theorem claim_C9 (rows : List ReqLine) (edits : List Int) :
    mobile_edit_step rows edits = table_edit_step rows (edits.map some)
    ∧ totals (mobile_edit_step rows edits) = totals (table_edit_step rows (edits.map some)) := by
  have h : mobile_edit_step rows edits = table_edit_step rows (edits.map some) := by
    rw [mobile_edit_step, table_edit_step, List.zipWith_map_right]
    rfl
  exact ⟨h, by rw [h]⟩
